import Mathlib

set_option maxHeartbeats 1000000

/-
Shallow embedding of the HSI (hyperspectral image) data reader from
src/hsi_data_reader.h and src/hsi_data_reader.cpp.

Modelling conventions:
- C++ `int`/`long` values (dimensions, coordinates, ranges, offsets) are
  modelled as `Int`; machine overflow is not modelled (all concrete inputs
  considered are far below 2^31).
- A binary data file is modelled as a total function `Nat → Nat` from byte
  position to byte value (a byte is a `Nat`); `std::ifstream` reads of
  `data_size` bytes at position `p` become the list of values at
  `p, p+1, ..., p+data_size-1`.
- `FatalError` (which prints and calls `exit(-1)`) is modelled as a dedicated
  result constructor, distinct from ordinary `Error` (which prints and
  returns); this keeps the abort/recoverable distinction observable.
- `std::unordered_map<std::string, std::string>` is modelled as an association
  list observed only through `lookupConfig` and emptiness.
-/

/-- Interleave format enumeration, from `HSIDataInterleaveFormat` in
hsi_data_reader.h. -/
inductive HSIDataInterleaveFormat where
  | BSQ
  | BIP
  | BIL
deriving DecidableEq

/-- Data type enumeration, from `HSIDataType` in hsi_data_reader.h. -/
inductive HSIDataType where
  | BYTE
  | INT16
  | INT32
  | FLOAT
  | DOUBLE
  | UINT16
  | UINT32
  | UINT64
  | ULONG
deriving DecidableEq

/-- Byte width of one element, from `GetDataSize` in hsi_data_reader.cpp
(lines 83-105); sizeof values on an LP64 platform.  The C++ switch returns
`sizeof(float)` for `HSI_DATA_TYPE_FLOAT` and for the `default` label; the
enumeration here is exhaustive so no default case is needed. -/
def GetDataSize : HSIDataType → Nat
  | .BYTE => 1
  | .INT16 => 2
  | .INT32 => 4
  | .DOUBLE => 8
  | .UINT16 => 2
  | .UINT32 => 4
  | .UINT64 => 8
  | .ULONG => 8
  | .FLOAT => 4

/-- Options struct from `HSIDataOptions` in hsi_data_reader.h, with the
default member initializers of the C++ struct. -/
structure HSIDataOptions where
  hsi_file_path : String := ""
  interleave_format : HSIDataInterleaveFormat := .BSQ
  data_type : HSIDataType := .FLOAT
  big_endian : Bool := false
  header_offset : Int := 0
  num_data_rows : Int := 0
  num_data_cols : Int := 0
  num_data_bands : Int := 0
deriving DecidableEq

/-- Range struct from `HSIDataRange` in hsi_data_reader.h. -/
structure HSIDataRange where
  start_band : Int := 0
  end_band : Int := 0
  start_row : Int := 0
  end_row : Int := 0
  start_col : Int := 0
  end_col : Int := 0
deriving DecidableEq

/-- In-memory cube struct from `HSIData` in hsi_data_reader.h; `raw_data`
models the `std::vector<char>` as a list of byte values. -/
structure HSIData where
  num_rows : Int := 0
  num_cols : Int := 0
  num_bands : Int := 0
  interleave_format : HSIDataInterleaveFormat := .BSQ
  data_type : HSIDataType := .FLOAT
  raw_data : List Nat := []
deriving DecidableEq

/-! ## Configuration file parsing (`GetConfigFileValues`, lines 50-80) -/

/-- The `std::isspace` characters of the default C locale: space, tab, line
feed, vertical tab, form feed, carriage return. -/
def isSpaceChar (c : Char) : Bool :=
  c == ' ' || (9 ≤ c.toNat && c.toNat ≤ 13)

/-- Whitespace trimming from both sides, from `TrimString` in
hsi_data_reader.cpp (lines 31-46). -/
def TrimString (s : String) : String :=
  let cs := s.data.dropWhile (fun c => isSpaceChar c)
  String.mk ((cs.reverse.dropWhile (fun c => isSpaceChar c)).reverse)

/-- Map update `config_values[key] = value` of the C++ `unordered_map`: if the
key is present its value is replaced, otherwise the pair is added. -/
def configInsert (m : List (String × String)) (k v : String) :
    List (String × String) :=
  if m.any (fun p => p.1 == k) then
    m.map (fun p => if p.1 == k then (k, v) else p)
  else
    m ++ [(k, v)]

/-- Lookup (`unordered_map::find`) in the association-list model. -/
def lookupConfig (m : List (String × String)) (k : String) : Option String :=
  (m.find? (fun p => p.1 == k)).map (fun p => p.2)

/-- One iteration of the `while (std::getline(...))` loop of
`GetConfigFileValues` (lines 63-76): skip the line when `line.find('#') == 0`
(the '#' is the first character); find the first '=' and skip when
`split_position <= 0` (no '=' at all — `npos` converted to `int` is -1 — or
'=' at position 0); otherwise split, trim both sides and insert. -/
def parseConfigLine (m : List (String × String)) (line : String) :
    List (String × String) :=
  if line.data.head? = some '#' then m
  else
    match line.data.findIdx? (fun c => c == '=') with
    | none => m
    | some i =>
      if i = 0 then m
      else
        configInsert m (TrimString (String.mk (line.data.take i)))
          (TrimString (String.mk (line.data.drop (i + 1))))

/-- `GetConfigFileValues` (lines 50-80) on the list of lines of the file.
The file itself is abstracted: the caller supplies the lines obtained from
the stream (a file that cannot be opened contributes no lines and yields the
empty map, as in the C++ early return). -/
def GetConfigFileValues (lines : List String) : List (String × String) :=
  lines.foldl parseConfigLine []

/-! ## Random access (`HSIData::GetValue`, lines 424-464) -/

/-- Axis tag used to report which coordinate of a `GetValue` call was out of
range. -/
inductive HSIAxis where
  | row
  | col
  | band
deriving DecidableEq

/-- Result of `GetValue`.  The C++ function prints an `Error` message naming
the offending axis and its valid upper bound and returns a zero-initialized
`HSIDataValue`; here the message is modelled by `err` (axis and reported
bound) and the returned scalar by its `GetDataSize`-many meaningful bytes. -/
structure HSIDataValue where
  err : Option (HSIAxis × Int)
  bytes : List Nat
deriving DecidableEq

/-- The linear element index computed by `HSIData::GetValue` (lines 442-457),
written exactly as the C++ arithmetic: BSQ uses
`band_index = (num_rows * num_cols) * band` then `band_index + row*num_cols +
col`; BIL and BIP use `row_index = (num_cols * num_bands) * row`. -/
def GetValueIndex (d : HSIData) (row col band : Int) : Int :=
  match d.interleave_format with
  | .BSQ => (d.num_rows * d.num_cols) * band + (row * d.num_cols) + col
  | .BIL => (d.num_cols * d.num_bands) * row + (band * d.num_cols) + col
  | .BIP => (d.num_cols * d.num_bands) * row + (col * d.num_bands) + band

/-- `HSIData::GetValue` (lines 424-464).  Out-of-range coordinates are
reported (axis and valid bound `dim - 1`, as in the printed message) and the
zero value is returned without touching `raw_data`.  In range, the bytes at
`index * data_size` are copied out; the C++ indexing `raw_data[...]` has no
bounds check, the model reads with default 0 (the in-bounds theorem shows the
default is never used for a well-formed cube). -/
def GetValue (d : HSIData) (row col band : Int) : HSIDataValue :=
  let data_size := GetDataSize d.data_type
  if row < 0 ∨ d.num_rows ≤ row then
    { err := some (.row, d.num_rows - 1), bytes := List.replicate data_size 0 }
  else if col < 0 ∨ d.num_cols ≤ col then
    { err := some (.col, d.num_cols - 1), bytes := List.replicate data_size 0 }
  else if band < 0 ∨ d.num_bands ≤ band then
    { err := some (.band, d.num_bands - 1), bytes := List.replicate data_size 0 }
  else
    { err := none,
      bytes := (List.range data_size).map
        (fun k =>
          d.raw_data.getD ((GetValueIndex d row col band).toNat * data_size + k) 0) }

/-! ## Sequential read (`ReadNextValue` and `ReadData*`, lines 121-258) -/

/-- Validated loop bounds in `Nat` form.  `ReadData` validates
`0 ≤ start ≤ end ≤ dim` on `int` values before any traversal; after that
validation the `for` loops range over non-negative values only, so the
traversal is stated over `Nat` (the conversion is `Int.toNat`). -/
structure NatDims where
  rows : Nat
  cols : Nat
  bands : Nat
deriving DecidableEq

/-- Nat form of a validated `HSIDataRange`. -/
structure NatRange where
  sr : Nat
  er : Nat
  sc : Nat
  ec : Nat
  sb : Nat
  eb : Nat
deriving DecidableEq

/-- The sequence of `next_index` values computed by the loop nest of
`ReadDataBSQ` (lines 161-177): bands outer, then rows, then cols, with
`band_index = band * (num_data_rows * num_data_cols)` and
`pixel_index = row * num_data_cols + col` against the FULL-cube dimensions. -/
def ReadDataBSQindices (d : NatDims) (r : NatRange) : List Nat :=
  (List.range' r.sb (r.eb - r.sb)).flatMap (fun band =>
    (List.range' r.sr (r.er - r.sr)).flatMap (fun row =>
      (List.range' r.sc (r.ec - r.sc)).map (fun col =>
        band * (d.rows * d.cols) + (row * d.cols + col))))

/-- The `next_index` sequence of `ReadDataBIL` (lines 200-216): rows outer,
then bands, then cols, with `row_index = row * (num_data_bands *
num_data_cols)`. -/
def ReadDataBILindices (d : NatDims) (r : NatRange) : List Nat :=
  (List.range' r.sr (r.er - r.sr)).flatMap (fun row =>
    (List.range' r.sb (r.eb - r.sb)).flatMap (fun band =>
      (List.range' r.sc (r.ec - r.sc)).map (fun col =>
        row * (d.bands * d.cols) + band * d.cols + col)))

/-- The `next_index` sequence of `ReadDataBIP` (lines 239-257): rows outer,
then cols, then bands. -/
def ReadDataBIPindices (d : NatDims) (r : NatRange) : List Nat :=
  (List.range' r.sr (r.er - r.sr)).flatMap (fun row =>
    (List.range' r.sc (r.ec - r.sc)).flatMap (fun col =>
      (List.range' r.sb (r.eb - r.sb)).map (fun band =>
        row * (d.bands * d.cols) + col * d.bands + band)))

/-- Dispatch on the interleave format, as in `HSIDataReader::ReadData`
(lines 547-571). -/
def interleaveIndices (fmt : HSIDataInterleaveFormat) (d : NatDims)
    (r : NatRange) : List Nat :=
  match fmt with
  | .BSQ => ReadDataBSQindices d r
  | .BIL => ReadDataBILindices d r
  | .BIP => ReadDataBIPindices d r

/-- The byte position each element is read from, following `ReadNextValue`
(lines 121-139): the stream seeks to `next_value_index * data_size` only when
`next_value_index > current_value_index + 1`; otherwise it reads from the
current stream position.  `current` starts at `start_index` and `pos` at
`start_index * data_size` (the initial `seekg` of the `ReadData*` helpers);
after each read the stream position advances by `data_size`. -/
def ReadNextPositions (data_size : Nat) : List Nat → Nat → Nat → List Nat
  | [], _, _ => []
  | next :: rest, current, pos =>
    let p := if current + 1 < next then next * data_size else pos
    p :: ReadNextPositions data_size rest next (p + data_size)

/-- The `data_size` bytes starting at byte position `p` of the file. -/
def elementBytesAt (file : Nat → Nat) (data_size p : Nat) : List Nat :=
  (List.range data_size).map (fun k => file (p + k))

/-- `ReverseBytes` (lines 109-116): the in-place loop swapping byte `i` with
byte `data_size - 1 - i` for `i < data_size / 2` is exactly list reversal on
the `data_size`-element buffer. -/
def ReverseBytes (bytes : List Nat) : List Nat :=
  bytes.reverse

/-- Conditional reversal, the `if (reverse_byte_order)` step of
`ReadNextValue` and `WriteData`. -/
def reverseIfNeeded (b : Bool) (bytes : List Nat) : List Nat :=
  if b then ReverseBytes bytes else bytes

/-- The bytes appended to `raw_data` over a whole traversal: for each element
position, read `data_size` bytes, conditionally reverse, append. -/
def readRawData (file : Nat → Nat) (data_size : Nat) (rev : Bool)
    (positions : List Nat) : List Nat :=
  positions.flatMap (fun p => reverseIfNeeded rev (elementBytesAt file data_size p))

/-- Nat form of the full-cube dimensions of validated options. -/
def natDimsOf (opts : HSIDataOptions) : NatDims :=
  ⟨opts.num_data_rows.toNat, opts.num_data_cols.toNat, opts.num_data_bands.toNat⟩

/-- Nat form of a validated range. -/
def natRangeOf (r : HSIDataRange) : NatRange :=
  ⟨r.start_row.toNat, r.end_row.toNat, r.start_col.toNat, r.end_col.toNat,
    r.start_band.toNat, r.end_band.toNat⟩

/-- The post-validation body of `HSIDataReader::ReadData` (lines 538-571):
the produced `HSIData` with sub-cube dimensions `end - start`, the options'
interleave and data type, and the bytes gathered by the interleave-specific
traversal starting from `current_index = header_offset` with the stream
seeked to `current_index * data_size`. -/
def buildCube (file : Nat → Nat) (opts : HSIDataOptions) (range : HSIDataRange)
    (machine_big_endian : Bool) : HSIData :=
  let data_size := GetDataSize opts.data_type
  let idx := interleaveIndices opts.interleave_format (natDimsOf opts) (natRangeOf range)
  let off := opts.header_offset.toNat
  { num_rows := range.end_row - range.start_row,
    num_cols := range.end_col - range.start_col,
    num_bands := range.end_band - range.start_band,
    interleave_format := opts.interleave_format,
    data_type := opts.data_type,
    raw_data := readRawData file data_size (opts.big_endian != machine_big_endian)
      (ReadNextPositions data_size idx off (off * data_size)) }

/-- The reasons `HSIDataReader::ReadData` calls `FatalError` during range
validation (lines 499-529), in program order. -/
inductive ReadFatal where
  | invalidRowRange
  | invalidColRange
  | invalidBandRange
  | rowRangeNotPositive
  | colRangeNotPositive
  | bandRangeNotPositive
deriving DecidableEq

/-- Outcome of `ReadData`: either a filled cube, or a `FatalError` (which in
the C++ terminates the process via `exit(-1)`). -/
inductive ReadResult where
  | ok (data : HSIData)
  | fatal (e : ReadFatal)
deriving DecidableEq

/-- The range validation chain of `ReadData` (lines 500-529), in program
order: per-axis bounds checks `start < 0 || end > dim`, then the
non-positive-span checks on `end - start`. -/
def rangeValidationError (opts : HSIDataOptions) (r : HSIDataRange) :
    Option ReadFatal :=
  if r.start_row < 0 ∨ opts.num_data_rows < r.end_row then some .invalidRowRange
  else if r.start_col < 0 ∨ opts.num_data_cols < r.end_col then some .invalidColRange
  else if r.start_band < 0 ∨ opts.num_data_bands < r.end_band then some .invalidBandRange
  else if r.end_row - r.start_row ≤ 0 then some .rowRangeNotPositive
  else if r.end_col - r.start_col ≤ 0 then some .colRangeNotPositive
  else if r.end_band - r.start_band ≤ 0 then some .bandRangeNotPositive
  else none

/-- `HSIDataReader::ReadData` (lines 499-572): validate the range against the
full-cube dimensions (any failure is fatal, before the data file is touched),
then read.  The data file is passed as a total byte function, so the
file-open step cannot fail in the model. -/
def ReadData (file : Nat → Nat) (opts : HSIDataOptions) (range : HSIDataRange)
    (machine_big_endian : Bool) : ReadResult :=
  match rangeValidationError opts range with
  | some e => .fatal e
  | none => .ok (buildCube file opts range machine_big_endian)

/-- `HSIDataReader::WriteData` (lines 574-599): for each of
`raw_data.size() / data_size` elements, copy its `data_size` bytes,
conditionally reverse (using the READER options' endianness against the
machine), and write them out in order. -/
def WriteData (d : HSIData) (options_big_endian machine_big_endian : Bool) :
    List Nat :=
  let data_size := GetDataSize d.data_type
  let num_data_points := d.raw_data.length / data_size
  (List.range num_data_points).flatMap (fun i =>
    reverseIfNeeded (options_big_endian != machine_big_endian)
      ((d.raw_data.drop (i * data_size)).take data_size))

/-- A written byte list viewed as a file (positions past the end read 0;
all positions accessed by the theorems below are in range). -/
def fileOfBytes (bytes : List Nat) : Nat → Nat :=
  fun p => bytes.getD p 0

/-! ## Header parsing (`HSIDataOptions::ReadHeaderFromFile`, lines 264-375) -/

/-- The `atoi` calls of the header parser: skip leading whitespace, optional
sign, then the longest digit prefix (0 when there are no digits). -/
def atoiDigits (cs : List Char) : Nat :=
  (cs.takeWhile Char.isDigit).foldl (fun a c => 10 * a + (c.toNat - 48)) 0

/-- Model of C `atoi` (overflow not modelled). -/
def atoiModel (s : String) : Int :=
  match s.data.dropWhile (fun c => isSpaceChar c) with
  | '-' :: rest => -(atoiDigits rest : Int)
  | '+' :: rest => (atoiDigits rest : Int)
  | cs => (atoiDigits cs : Int)

/-- Outcome of `ReadHeaderFromFile`: parsed options, a `FatalError`, or fuel
exhaustion of the model (the C++ recursion has no depth bound at all). -/
inductive HeaderResult where
  | ok (opts : HSIDataOptions)
  | fatal (msg : String)
  | outOfFuel
deriving DecidableEq

/-- The `interleave` key handling (lines 285-299); an unknown token is a
`FatalError`. -/
def parseInterleaveField (m : List (String × String)) (o : HSIDataOptions) :
    Except String HSIDataOptions :=
  match lookupConfig m "interleave" with
  | none => .ok o
  | some v =>
    if v == "bsq" then .ok { o with interleave_format := .BSQ }
    else if v == "bip" then .ok { o with interleave_format := .BIP }
    else if v == "bil" then .ok { o with interleave_format := .BIL }
    else .error ("Unsupported/unknown data interleave format: " ++ v)

/-- The `data type` key handling (lines 301-334); numeric code or name token,
unknown values are a `FatalError`. -/
def parseDataTypeField (m : List (String × String)) (o : HSIDataOptions) :
    Except String HSIDataOptions :=
  match lookupConfig m "data type" with
  | none => .ok o
  | some v =>
    if v == "1" || v == "byte" then .ok { o with data_type := .BYTE }
    else if v == "2" || v == "int16" then .ok { o with data_type := .INT16 }
    else if v == "3" || v == "int32" then .ok { o with data_type := .INT32 }
    else if v == "4" || v == "float" then .ok { o with data_type := .FLOAT }
    else if v == "5" || v == "double" then .ok { o with data_type := .DOUBLE }
    else if v == "12" || v == "uint16" then .ok { o with data_type := .UINT16 }
    else if v == "13" || v == "uint32" then .ok { o with data_type := .UINT32 }
    else if v == "14" || v == "uint64" then .ok { o with data_type := .UINT64 }
    else if v == "15" || v == "ulong" then .ok { o with data_type := .ULONG }
    else .error ("Unsupported/unknown data type: " ++ v)

/-- The `byte order` key handling (lines 337-342). -/
def applyByteOrderField (m : List (String × String)) (o : HSIDataOptions) :
    HSIDataOptions :=
  match lookupConfig m "byte order" with
  | some v => { o with big_endian := v == "1" }
  | none => o

/-- The `header offset` key handling (lines 344-348). -/
def applyHeaderOffsetField (m : List (String × String)) (o : HSIDataOptions) :
    HSIDataOptions :=
  match lookupConfig m "header offset" with
  | some v => { o with header_offset := atoiModel v }
  | none => o

/-- The row-count population (lines 350-358): key `samples` when the
interleave (as set so far) is BSQ, key `lines` otherwise. -/
def applyRowsField (m : List (String × String)) (o : HSIDataOptions) :
    HSIDataOptions :=
  match (if o.interleave_format = .BSQ then lookupConfig m "samples"
         else lookupConfig m "lines") with
  | some v => { o with num_data_rows := atoiModel v }
  | none => o

/-- The column-count population (lines 360-368): key `lines` for BSQ, key
`samples` otherwise. -/
def applyColsField (m : List (String × String)) (o : HSIDataOptions) :
    HSIDataOptions :=
  match (if o.interleave_format = .BSQ then lookupConfig m "lines"
         else lookupConfig m "samples") with
  | some v => { o with num_data_cols := atoiModel v }
  | none => o

/-- The `bands` key handling (lines 370-374). -/
def applyBandsField (m : List (String × String)) (o : HSIDataOptions) :
    HSIDataOptions :=
  match lookupConfig m "bands" with
  | some v => { o with num_data_bands := atoiModel v }
  | none => o

/-- Lines 285-374 of `ReadHeaderFromFile` after the `data`/`header` keys:
interleave, data type, byte order, header offset, rows, cols, bands, in
program order; the two fallible parses turn into the `Except` error. -/
def applyHeaderFields (m : List (String × String)) (o : HSIDataOptions) :
    Except String HSIDataOptions :=
  match parseInterleaveField m o with
  | .error e => .error e
  | .ok o1 =>
    match parseDataTypeField m o1 with
    | .error e => .error e
    | .ok o2 =>
      .ok (applyBandsField m (applyColsField m (applyRowsField m
        (applyHeaderOffsetField m (applyByteOrderField m o2)))))

/-- `HSIDataOptions::ReadHeaderFromFile` (lines 264-375).  `fs` maps a header
file path to its parsed key/value map (`GetConfigFileValues`; a file that
cannot be opened yields the empty map).  An empty map is a `FatalError`; the
`data` key sets the data file path; a `header` key re-parses the named file
in place of the current one — the C++ recursion has no visited-path
tracking, which the fuel parameter makes observable (`outOfFuel`). -/
def ReadHeaderFromFile (fs : String → List (String × String)) :
    Nat → String → HSIDataOptions → HeaderResult
  | 0, _, _ => .outOfFuel
  | Nat.succ fuel, path, o =>
    let m := fs path
    if m.isEmpty then .fatal "No header values available."
    else
      let o1 := match lookupConfig m "data" with
        | some v => { o with hsi_file_path := v }
        | none => o
      match lookupConfig m "header" with
      | some h => ReadHeaderFromFile fs fuel h o1
      | none =>
        match applyHeaderFields m o1 with
        | .ok o2 => .ok o2
        | .error e => .fatal e

/-- Termination of header loading for a given file system, path and initial
options: some fuel bound suffices for the recursion to finish (with any
result other than fuel exhaustion). -/
def HeaderLoadTerminates (fs : String → List (String × String)) (path : String)
    (o : HSIDataOptions) : Prop :=
  ∃ n, ReadHeaderFromFile fs n path o ≠ .outOfFuel

/-! ## Spec-side definitions used for comparison -/

/-- Modelled from the spec (section 4.3): the AddressingEngine linear-index
formula for given dimensions, written exactly as the spec states it.  Used
only to compare against `GetValueIndex`. -/
def specInterleaveIndex (fmt : HSIDataInterleaveFormat)
    (rows cols bands row col band : Int) : Int :=
  match fmt with
  | .BSQ => band * (rows * cols) + row * cols + col
  | .BIL => row * (bands * cols) + band * cols + col
  | .BIP => row * (bands * cols) + col * bands + band

/-- Modelled from the spec (section 4.6 step 7): the byte position of each
element is its traversal index plus `header_offset`, times the element
width, for every element. -/
def specReadPositions (header_offset data_size : Nat) (indices : List Nat) :
    List Nat :=
  indices.map (fun i => (header_offset + i) * data_size)

/-- Modelled from the spec (section 9, seek-skip note): the always-seek
variant of the traversal performs an explicit seek to `index * width` before
every single element read. -/
def alwaysSeekPositions (data_size : Nat) (indices : List Nat) : List Nat :=
  indices.map (fun i => i * data_size)

/-- Modelled from the spec (claim C6): a line is skipped when its first
non-whitespace character is '#' or when it contains no '='. -/
def specSkipsLine (line : String) : Bool :=
  (match line.data.dropWhile (fun c => isSpaceChar c) with
   | '#' :: _ => true
   | _ => false) ||
  !(line.data.any (fun c => c == '='))

/-! ## Concrete example inputs used by counterexamples and witnesses -/

/-- BSQ byte file options with a nonzero header offset (full cube 2 rows,
2 cols, 1 band), used to exhibit the header-offset handling of seeks. -/
def optsOffsetBsq : HSIDataOptions :=
  { interleave_format := .BSQ, data_type := .BYTE, header_offset := 1,
    num_data_rows := 2, num_data_cols := 2, num_data_bands := 1 }

/-- Column sub-range [0, 1) of both rows: the traversal [0, 2] is not
contiguous, so the second element triggers an explicit seek. -/
def rangeOffsetBsq : HSIDataRange :=
  { start_band := 0, end_band := 1, start_row := 0, end_row := 2,
    start_col := 0, end_col := 1 }

/-- BSQ byte file options without header offset (full cube 1 row, 4 cols,
1 band). -/
def optsRowBsq : HSIDataOptions :=
  { interleave_format := .BSQ, data_type := .BYTE, header_offset := 0,
    num_data_rows := 1, num_data_cols := 4, num_data_bands := 1 }

/-- Column sub-range [1, 4): the first traversal index is 1, exactly one past
the initial `current_index` of 0. -/
def rangeRowBsq : HSIDataRange :=
  { start_band := 0, end_band := 1, start_row := 0, end_row := 1,
    start_col := 1, end_col := 4 }

/-- Small full cube (2 rows, 2 cols, 2 bands) of bytes. -/
def optsSmall : HSIDataOptions :=
  { interleave_format := .BSQ, data_type := .BYTE, header_offset := 0,
    num_data_rows := 2, num_data_cols := 2, num_data_bands := 2 }

/-- A range with a negative start row. -/
def rangeBadRow : HSIDataRange :=
  { start_band := 0, end_band := 2, start_row := -1, end_row := 2,
    start_col := 0, end_col := 2 }

/-- The full valid range of `optsSmall`. -/
def rangeSmallFull : HSIDataRange :=
  { start_band := 0, end_band := 2, start_row := 0, end_row := 2,
    start_col := 0, end_col := 2 }

/-- Small BIL byte cube used as witness input for the access theorems. -/
def cubeSmall : HSIData :=
  { num_rows := 2, num_cols := 2, num_bands := 2,
    interleave_format := .BIL, data_type := .BYTE,
    raw_data := [10, 11, 12, 13, 14, 15, 16, 17] }

/-- A two-file header configuration in which each file's `header` key names
the other file. -/
def cyclicHeaderFS : String → List (String × String) :=
  fun p =>
    if p == "a" then [("header", "b")]
    else if p == "b" then [("header", "a")]
    else []

/-- The DataOptions prescribed by the round-trip property for reading back a
written sub-cube: the cube's own dimensions, offset 0, and the same
interleave, data type and endianness. -/
def matchingOptions (c : HSIData) (big_endian : Bool) : HSIDataOptions :=
  { hsi_file_path := "",
    interleave_format := c.interleave_format,
    data_type := c.data_type,
    big_endian := big_endian,
    header_offset := 0,
    num_data_rows := c.num_rows,
    num_data_cols := c.num_cols,
    num_data_bands := c.num_bands }

/-- The full range of a cube (all rows, columns and bands). -/
def fullCubeRange (c : HSIData) : HSIDataRange :=
  { start_band := 0, end_band := c.num_bands,
    start_row := 0, end_row := c.num_rows,
    start_col := 0, end_col := c.num_cols }

/-- C1: with `header_offset = 1` on a BSQ byte cube (2 rows, 2 cols, 1 band)
and sub-range rows [0,2) x cols [0,1), the code's traversal visits element
indices [0, 2] and reads from byte positions [1, 2]: the initial seek honors
the offset but the explicit seek for the non-contiguous second element goes
to `next_index * width` without it, so the second element is read from byte
2 while the spec's position `(header_offset + index) * width` is byte 3; on
the file whose byte at position n is `20 + n`, the cube receives [21, 22]
but the spec-mandated bytes are [21, 23]. -/
theorem readData_seek_drops_header_offset :
    ReadNextPositions 1 (ReadDataBSQindices ⟨2, 2, 1⟩ ⟨0, 2, 0, 1, 0, 1⟩) 1 1
        = [1, 2] ∧
    specReadPositions 1 1 (ReadDataBSQindices ⟨2, 2, 1⟩ ⟨0, 2, 0, 1, 0, 1⟩)
        = [1, 3] ∧
    (buildCube (fun n => 20 + n) optsOffsetBsq rangeOffsetBsq false).raw_data
        = [21, 22] ∧
    readRawData (fun n => 20 + n) 1 false
        (specReadPositions 1 1 (ReadDataBSQindices ⟨2, 2, 1⟩ ⟨0, 2, 0, 1, 0, 1⟩))
        = [21, 23] := by
  refine ⟨by decide, by decide, ?_, ?_⟩ <;> decide

/-- C9: on a BSQ byte cube (1 row, 4 cols, 1 band, no header offset) with
sub-range cols [1,4), the traversal indices are [1, 2, 3]; the seek-skip
traversal never seeks (the first index is exactly `start_index + 1`, so the
skip test `next > current + 1` fails) and reads byte positions [0, 1, 2],
while the always-seek variant reads [1, 2, 3]; on the file whose byte at
position n is `10 + n` the cube receives [10, 11, 12] instead of the
always-seek bytes [11, 12, 13]. -/
theorem readData_seek_skip_not_equivalent :
    ReadNextPositions 1 (ReadDataBSQindices ⟨1, 4, 1⟩ ⟨0, 1, 1, 4, 0, 1⟩) 0 0
        = [0, 1, 2] ∧
    alwaysSeekPositions 1 (ReadDataBSQindices ⟨1, 4, 1⟩ ⟨0, 1, 1, 4, 0, 1⟩)
        = [1, 2, 3] ∧
    (buildCube (fun n => 10 + n) optsRowBsq rangeRowBsq false).raw_data
        = [10, 11, 12] ∧
    readRawData (fun n => 10 + n) 1 false
        (alwaysSeekPositions 1 (ReadDataBSQindices ⟨1, 4, 1⟩ ⟨0, 1, 1, 4, 0, 1⟩))
        = [11, 12, 13] := by
  refine ⟨by decide, by decide, ?_, ?_⟩ <;> decide

/-- C4 counterexample: an invalid range (negative start row) makes `ReadData`
return the `FatalError` outcome — in the C++ this is `exit(-1)`, a process
abort, not a recoverable validation error returned to the caller. -/
theorem readData_invalid_range_aborts :
    ReadData (fun _ => 0) optsSmall rangeBadRow false
      = .fatal .invalidRowRange := by
  decide

/-- C4 (amended): `ReadData` fails — fatally, aborting the process, rather
than returning a recoverable error — exactly when some axis has `start < 0`,
`end > dim`, or span `end - start ≤ 0`; every such failure is decided by the
pure validation chain before the data file contributes anything (the result
is the same for every file and machine endianness), and a range satisfying
all three conditions on every axis passes validation and is read. -/
theorem readData_range_validation (opts : HSIDataOptions) (range : HSIDataRange) :
    (rangeValidationError opts range = none ↔
      (0 ≤ range.start_row ∧ range.end_row ≤ opts.num_data_rows ∧
        0 < range.end_row - range.start_row ∧
        0 ≤ range.start_col ∧ range.end_col ≤ opts.num_data_cols ∧
        0 < range.end_col - range.start_col ∧
        0 ≤ range.start_band ∧ range.end_band ≤ opts.num_data_bands ∧
        0 < range.end_band - range.start_band)) ∧
    (∀ e, rangeValidationError opts range = some e →
      ∀ file mBE file2 mBE2,
        ReadData file opts range mBE = .fatal e ∧
        ReadData file opts range mBE = ReadData file2 opts range mBE2) ∧
    (rangeValidationError opts range = none →
      ∀ file mBE,
        ReadData file opts range mBE = .ok (buildCube file opts range mBE)) := by
  refine ⟨?_, ?_, ?_⟩
  · unfold rangeValidationError
    split_ifs with h1 h2 h3 h4 h5 h6 <;> simp <;> omega
  · intro e he file mBE file2 mBE2
    constructor
    · unfold ReadData
      rw [he]
    · unfold ReadData
      rw [he]
  · intro h file mBE
    unfold ReadData
    rw [h]

/-- C4 witness: the valid full range of the small cube passes validation and
is read without a fatal outcome. -/
theorem readData_range_validation_witness :
    rangeValidationError optsSmall rangeSmallFull = none ∧
    ReadData (fun _ => 0) optsSmall rangeSmallFull false
      = .ok (buildCube (fun _ => 0) optsSmall rangeSmallFull false) :=
  ⟨by decide,
    (readData_range_validation optsSmall rangeSmallFull).2.2 (by decide)
      (fun _ => 0) false⟩

/-- Every data type has a positive byte width. -/
theorem GetDataSize_pos (t : HSIDataType) : 0 < GetDataSize t := by
  cases t <;> decide

/-- C2: for in-range coordinates, `GetValue` reports no error, its linear
index is exactly the spec's AddressingEngine formula evaluated with the
cube's OWN dimensions, and the returned bytes are the `width(data_type)`
bytes of `raw_data` starting at `index * width`. -/
theorem getValue_in_range_uses_own_dims (d : HSIData) (row col band : Int)
    (h0r : 0 ≤ row) (hrow : row < d.num_rows)
    (h0c : 0 ≤ col) (hcol : col < d.num_cols)
    (h0b : 0 ≤ band) (hband : band < d.num_bands) :
    GetValueIndex d row col band
      = specInterleaveIndex d.interleave_format d.num_rows d.num_cols
          d.num_bands row col band ∧
    (GetValue d row col band).err = none ∧
    (GetValue d row col band).bytes
      = (List.range (GetDataSize d.data_type)).map (fun k =>
          d.raw_data.getD
            ((specInterleaveIndex d.interleave_format d.num_rows d.num_cols
                d.num_bands row col band).toNat
              * GetDataSize d.data_type + k) 0) := by
  have hidx : GetValueIndex d row col band
      = specInterleaveIndex d.interleave_format d.num_rows d.num_cols
          d.num_bands row col band := by
    cases hfmt : d.interleave_format <;>
      simp only [GetValueIndex, specInterleaveIndex, hfmt] <;> ring
  have hnr : ¬(row < 0 ∨ d.num_rows ≤ row) := by omega
  have hnc : ¬(col < 0 ∨ d.num_cols ≤ col) := by omega
  have hnb : ¬(band < 0 ∨ d.num_bands ≤ band) := by omega
  refine ⟨hidx, ?_, ?_⟩ <;>
    simp only [GetValue, if_neg hnr, if_neg hnc, if_neg hnb, hidx]

/-- C2 witness: the theorem evaluated on the small BIL cube at coordinate
(1, 0, 1). -/
theorem getValue_in_range_uses_own_dims_witness :
    GetValueIndex cubeSmall 1 0 1
      = specInterleaveIndex cubeSmall.interleave_format cubeSmall.num_rows
          cubeSmall.num_cols cubeSmall.num_bands 1 0 1 ∧
    (GetValue cubeSmall 1 0 1).err = none ∧
    (GetValue cubeSmall 1 0 1).bytes
      = (List.range (GetDataSize cubeSmall.data_type)).map (fun k =>
          cubeSmall.raw_data.getD
            ((specInterleaveIndex cubeSmall.interleave_format cubeSmall.num_rows
                cubeSmall.num_cols cubeSmall.num_bands 1 0 1).toNat
              * GetDataSize cubeSmall.data_type + k) 0) :=
  getValue_in_range_uses_own_dims cubeSmall 1 0 1 (by decide) (by decide)
    (by decide) (by decide) (by decide) (by decide)

/-- C8: for any coordinate with some axis outside its valid interval,
`GetValue` reports the first violated axis together with its valid bound
`dim - 1`, returns the zero-valued scalar, and does not depend on the cube's
raw memory at all (the same result is produced for every `raw_data`). -/
theorem getValue_out_of_range_reports_axis (d : HSIData) (row col band : Int)
    (h : row < 0 ∨ d.num_rows ≤ row ∨ col < 0 ∨ d.num_cols ≤ col ∨
      band < 0 ∨ d.num_bands ≤ band) :
    (GetValue d row col band).err ≠ none ∧
    (GetValue d row col band).bytes
      = List.replicate (GetDataSize d.data_type) 0 ∧
    ((row < 0 ∨ d.num_rows ≤ row) →
      (GetValue d row col band).err = some (.row, d.num_rows - 1)) ∧
    (¬(row < 0 ∨ d.num_rows ≤ row) → (col < 0 ∨ d.num_cols ≤ col) →
      (GetValue d row col band).err = some (.col, d.num_cols - 1)) ∧
    (¬(row < 0 ∨ d.num_rows ≤ row) → ¬(col < 0 ∨ d.num_cols ≤ col) →
      (GetValue d row col band).err = some (.band, d.num_bands - 1)) ∧
    (∀ raw2 : List Nat,
      GetValue { d with raw_data := raw2 } row col band
        = GetValue d row col band) := by
  by_cases h1 : row < 0 ∨ d.num_rows ≤ row
  · have he : ∀ raw2 : List Nat,
        GetValue { d with raw_data := raw2 } row col band
          = { err := some (.row, d.num_rows - 1),
              bytes := List.replicate (GetDataSize d.data_type) 0 } := by
      intro raw2
      simp only [GetValue, if_pos h1]
    have hd : GetValue d row col band
        = { err := some (.row, d.num_rows - 1),
            bytes := List.replicate (GetDataSize d.data_type) 0 } := by
      simp only [GetValue, if_pos h1]
    refine ⟨?_, ?_, ?_, ?_, ?_, ?_⟩
    · rw [hd]; simp
    · rw [hd]
    · intro _; rw [hd]
    · intro hc _; exact absurd h1 hc
    · intro hc _; exact absurd h1 hc
    · intro raw2; rw [he raw2, hd]
  · by_cases h2 : col < 0 ∨ d.num_cols ≤ col
    · have he : ∀ raw2 : List Nat,
          GetValue { d with raw_data := raw2 } row col band
            = { err := some (.col, d.num_cols - 1),
                bytes := List.replicate (GetDataSize d.data_type) 0 } := by
        intro raw2
        simp only [GetValue, if_neg h1, if_pos h2]
      have hd : GetValue d row col band
          = { err := some (.col, d.num_cols - 1),
              bytes := List.replicate (GetDataSize d.data_type) 0 } := by
        simp only [GetValue, if_neg h1, if_pos h2]
      refine ⟨?_, ?_, ?_, ?_, ?_, ?_⟩
      · rw [hd]; simp
      · rw [hd]
      · intro hc; exact absurd hc h1
      · intro _ _; rw [hd]
      · intro _ hc; exact absurd h2 hc
      · intro raw2; rw [he raw2, hd]
    · have h3 : band < 0 ∨ d.num_bands ≤ band := by tauto
      have he : ∀ raw2 : List Nat,
          GetValue { d with raw_data := raw2 } row col band
            = { err := some (.band, d.num_bands - 1),
                bytes := List.replicate (GetDataSize d.data_type) 0 } := by
        intro raw2
        simp only [GetValue, if_neg h1, if_neg h2, if_pos h3]
      have hd : GetValue d row col band
          = { err := some (.band, d.num_bands - 1),
              bytes := List.replicate (GetDataSize d.data_type) 0 } := by
        simp only [GetValue, if_neg h1, if_neg h2, if_pos h3]
      refine ⟨?_, ?_, ?_, ?_, ?_, ?_⟩
      · rw [hd]; simp
      · rw [hd]
      · intro hc; exact absurd hc h1
      · intro _ hc; exact absurd hc h2
      · intro _ _; rw [hd]
      · intro raw2; rw [he raw2, hd]

/-- C8 witness: `row = num_rows` (one past the end) on the small cube reports
the row axis with bound `num_rows - 1` and returns the zero scalar. -/
theorem getValue_out_of_range_reports_axis_witness :
    (GetValue cubeSmall 2 0 0).err = some (.row, cubeSmall.num_rows - 1) ∧
    (GetValue cubeSmall 2 0 0).bytes
      = List.replicate (GetDataSize cubeSmall.data_type) 0 :=
  ⟨(getValue_out_of_range_reports_axis cubeSmall 2 0 0 (by decide)).2.2.1
      (by decide),
    (getValue_out_of_range_reports_axis cubeSmall 2 0 0 (by decide)).2.1⟩

/-- C10: on a cube whose `raw_data` has exactly
`num_rows * num_cols * num_bands * width` bytes, the index computed by
`GetValue` for any in-range coordinate is non-negative and its byte slice
`[index * width, index * width + width)` lies entirely inside `raw_data`. -/
theorem getValueIndex_slice_in_bounds (d : HSIData) (row col band : Int)
    (hlen : d.raw_data.length
      = (d.num_rows * d.num_cols * d.num_bands).toNat * GetDataSize d.data_type)
    (h0r : 0 ≤ row) (hrow : row < d.num_rows)
    (h0c : 0 ≤ col) (hcol : col < d.num_cols)
    (h0b : 0 ≤ band) (hband : band < d.num_bands) :
    0 ≤ GetValueIndex d row col band ∧
    (GetValueIndex d row col band).toNat * GetDataSize d.data_type
        + GetDataSize d.data_type ≤ d.raw_data.length := by
  have hR : (0 : Int) < d.num_rows := by omega
  have hC : (0 : Int) < d.num_cols := by omega
  have hB : (0 : Int) < d.num_bands := by omega
  have key : 0 ≤ GetValueIndex d row col band ∧
      GetValueIndex d row col band + 1
        ≤ d.num_rows * d.num_cols * d.num_bands := by
    cases hfmt : d.interleave_format <;> simp only [GetValueIndex, hfmt]
    · have e1 : (band + 1) * (d.num_rows * d.num_cols)
          ≤ d.num_bands * (d.num_rows * d.num_cols) :=
        mul_le_mul_of_nonneg_right (by omega) (mul_nonneg hR.le hC.le)
      have e2 : (row + 1) * d.num_cols ≤ d.num_rows * d.num_cols :=
        mul_le_mul_of_nonneg_right (by omega) hC.le
      constructor
      · have := mul_nonneg (mul_nonneg hR.le hC.le) h0b
        have := mul_nonneg h0r hC.le
        nlinarith
      · nlinarith [e1, e2]
    · have e1 : (row + 1) * (d.num_cols * d.num_bands)
          ≤ d.num_rows * (d.num_cols * d.num_bands) :=
        mul_le_mul_of_nonneg_right (by omega) (mul_nonneg hC.le hB.le)
      have e2 : (col + 1) * d.num_bands ≤ d.num_cols * d.num_bands :=
        mul_le_mul_of_nonneg_right (by omega) hB.le
      constructor
      · have := mul_nonneg (mul_nonneg hC.le hB.le) h0r
        have := mul_nonneg h0c hB.le
        nlinarith
      · nlinarith [e1, e2]
    · have e1 : (row + 1) * (d.num_cols * d.num_bands)
          ≤ d.num_rows * (d.num_cols * d.num_bands) :=
        mul_le_mul_of_nonneg_right (by omega) (mul_nonneg hC.le hB.le)
      have e2 : (band + 1) * d.num_cols ≤ d.num_bands * d.num_cols :=
        mul_le_mul_of_nonneg_right (by omega) hC.le
      constructor
      · have := mul_nonneg (mul_nonneg hC.le hB.le) h0r
        have := mul_nonneg h0b hC.le
        nlinarith
      · nlinarith [e1, e2]
  obtain ⟨k1, k2⟩ := key
  refine ⟨k1, ?_⟩
  rw [hlen]
  generalize hN : d.num_rows * d.num_cols * d.num_bands = N at k2
  have h1 : (GetValueIndex d row col band).toNat + 1 ≤ N.toNat := by omega
  calc (GetValueIndex d row col band).toNat * GetDataSize d.data_type
        + GetDataSize d.data_type
      = ((GetValueIndex d row col band).toNat + 1) * GetDataSize d.data_type := by
        ring
    _ ≤ N.toNat * GetDataSize d.data_type :=
        Nat.mul_le_mul_right (GetDataSize d.data_type) h1

/-- C10 witness: the bound evaluated on the small cube at coordinate
(1, 1, 1). -/
theorem getValueIndex_slice_in_bounds_witness :
    0 ≤ GetValueIndex cubeSmall 1 1 1 ∧
    (GetValueIndex cubeSmall 1 1 1).toNat * GetDataSize cubeSmall.data_type
        + GetDataSize cubeSmall.data_type ≤ cubeSmall.raw_data.length :=
  getValueIndex_slice_in_bounds cubeSmall 1 1 1 (by decide) (by decide)
    (by decide) (by decide) (by decide) (by decide) (by decide)

/-! ## Header indirection (claim C5) -/

/-- With two header sources each naming the other via the `header` key, the
recursion of `ReadHeaderFromFile` consumes any amount of fuel without
producing a result, from either entry point and from any initial options. -/
theorem readHeader_cycle_aux (fs : String → List (String × String))
    (p q : String)
    (hpe : (fs p).isEmpty = false) (hpq : lookupConfig (fs p) "header" = some q)
    (hqe : (fs q).isEmpty = false) (hqp : lookupConfig (fs q) "header" = some p) :
    ∀ n, (∀ o, ReadHeaderFromFile fs n p o = .outOfFuel) ∧
      (∀ o, ReadHeaderFromFile fs n q o = .outOfFuel) := by
  intro n
  induction n with
  | zero => exact ⟨fun _ => rfl, fun _ => rfl⟩
  | succ n ih =>
    constructor
    · intro o
      simp only [ReadHeaderFromFile, hpe, hpq, Bool.false_eq_true, if_false]
      exact ih.2 _
    · intro o
      simp only [ReadHeaderFromFile, hqe, hqp, Bool.false_eq_true, if_false]
      exact ih.1 _

/-- C5 counterexample: header loading does NOT guard against cycles — with
the two mutually-referring header files, no fuel bound ever suffices, i.e.
the C++ recursion of `ReadHeaderFromFile` (which keeps no visited-path set)
never terminates. -/
theorem readHeaderFromFile_cycle_does_not_terminate :
    ¬ HeaderLoadTerminates cyclicHeaderFS "a" {} := by
  rintro ⟨n, hn⟩
  exact hn ((readHeader_cycle_aux cyclicHeaderFS "a" "b" rfl rfl rfl rfl n).1 {})

/-- C5 (amended): header loading keeps no visited-path tracking, so whenever
two header files refer to each other through the `header` key (both parsing
to non-empty maps), `ReadHeaderFromFile` recurses unboundedly: every fuel
bound is exhausted, for every initial options value. -/
theorem readHeaderFromFile_mutual_cycle_diverges
    (fs : String → List (String × String)) (p q : String)
    (hpe : (fs p).isEmpty = false) (hpq : lookupConfig (fs p) "header" = some q)
    (hqe : (fs q).isEmpty = false) (hqp : lookupConfig (fs q) "header" = some p) :
    (∀ n o, ReadHeaderFromFile fs n p o = .outOfFuel) ∧
    (∀ o, ¬ HeaderLoadTerminates fs p o) := by
  refine ⟨fun n o => (readHeader_cycle_aux fs p q hpe hpq hqe hqp n).1 o, ?_⟩
  rintro o ⟨n, hn⟩
  exact hn ((readHeader_cycle_aux fs p q hpe hpq hqe hqp n).1 o)

/-- C5 witness: the amended theorem applied to the concrete cyclic pair of
header files, at fuel 9. -/
theorem readHeaderFromFile_mutual_cycle_diverges_witness :
    lookupConfig (cyclicHeaderFS "a") "header" = some "b" ∧
    ReadHeaderFromFile cyclicHeaderFS 9 "a" {} = .outOfFuel :=
  ⟨rfl,
    (readHeaderFromFile_mutual_cycle_diverges cyclicHeaderFS "a" "b"
      rfl rfl rfl rfl).1 9 {}⟩

/-! ## Header field population (claim C7) -/

/-- `parseInterleaveField` never changes the row and column counts. -/
theorem parseInterleaveField_preserves (m : List (String × String))
    (o o1 : HSIDataOptions) (h : parseInterleaveField m o = .ok o1) :
    o1.num_data_rows = o.num_data_rows ∧ o1.num_data_cols = o.num_data_cols := by
  unfold parseInterleaveField at h
  split at h
  · injection h with h
    subst h
    exact ⟨rfl, rfl⟩
  · split_ifs at h <;> (try injection h with h) <;> (try subst h) <;>
      exact ⟨rfl, rfl⟩

/-- `parseDataTypeField` never changes the interleave format or the row and
column counts. -/
theorem parseDataTypeField_preserves (m : List (String × String))
    (o o1 : HSIDataOptions) (h : parseDataTypeField m o = .ok o1) :
    o1.interleave_format = o.interleave_format ∧
    o1.num_data_rows = o.num_data_rows ∧
    o1.num_data_cols = o.num_data_cols := by
  unfold parseDataTypeField at h
  split at h
  · injection h with h
    subst h
    exact ⟨rfl, rfl, rfl⟩
  · split_ifs at h <;> (try injection h with h) <;> (try subst h) <;>
      exact ⟨rfl, rfl, rfl⟩

/-- The byte-order and header-offset fields never change the interleave
format or the row and column counts. -/
theorem applyMidFields_preserves (m : List (String × String)) (o : HSIDataOptions) :
    (applyHeaderOffsetField m (applyByteOrderField m o)).interleave_format
      = o.interleave_format ∧
    (applyHeaderOffsetField m (applyByteOrderField m o)).num_data_rows
      = o.num_data_rows ∧
    (applyHeaderOffsetField m (applyByteOrderField m o)).num_data_cols
      = o.num_data_cols := by
  cases h1 : lookupConfig m "byte order" <;>
    cases h2 : lookupConfig m "header offset" <;>
      simp [applyByteOrderField, applyHeaderOffsetField, h1, h2]

/-- What `applyRowsField` does: rows are populated from `samples` for BSQ and
from `lines` otherwise; the columns and interleave are untouched. -/
theorem applyRowsField_spec (m : List (String × String)) (o : HSIDataOptions) :
    (applyRowsField m o).num_data_rows
      = (match (if o.interleave_format = .BSQ then lookupConfig m "samples"
                else lookupConfig m "lines") with
         | some v => atoiModel v
         | none => o.num_data_rows) ∧
    (applyRowsField m o).num_data_cols = o.num_data_cols ∧
    (applyRowsField m o).interleave_format = o.interleave_format := by
  unfold applyRowsField
  cases h : (if o.interleave_format = .BSQ then lookupConfig m "samples"
             else lookupConfig m "lines") <;> simp [h]

/-- What `applyColsField` does: columns are populated from `lines` for BSQ
and from `samples` otherwise; the rows and interleave are untouched. -/
theorem applyColsField_spec (m : List (String × String)) (o : HSIDataOptions) :
    (applyColsField m o).num_data_cols
      = (match (if o.interleave_format = .BSQ then lookupConfig m "lines"
                else lookupConfig m "samples") with
         | some v => atoiModel v
         | none => o.num_data_cols) ∧
    (applyColsField m o).num_data_rows = o.num_data_rows ∧
    (applyColsField m o).interleave_format = o.interleave_format := by
  unfold applyColsField
  cases h : (if o.interleave_format = .BSQ then lookupConfig m "lines"
             else lookupConfig m "samples") <;> simp [h]

/-- `applyBandsField` never changes the interleave format or the row and
column counts. -/
theorem applyBandsField_preserves (m : List (String × String)) (o : HSIDataOptions) :
    (applyBandsField m o).interleave_format = o.interleave_format ∧
    (applyBandsField m o).num_data_rows = o.num_data_rows ∧
    (applyBandsField m o).num_data_cols = o.num_data_cols := by
  unfold applyBandsField
  cases h : lookupConfig m "bands" <;> simp [h]

/-- C7: for every successfully parsed header, the row count comes from the
`samples` key exactly when the resulting interleave is BSQ and from `lines`
otherwise, and the column count from `lines` for BSQ and `samples`
otherwise (fields keep their prior value when the key is absent) — the
swap holds in both directions. -/
theorem headerFields_rows_cols_swap (m : List (String × String))
    (o o' : HSIDataOptions) (h : applyHeaderFields m o = .ok o') :
    o'.num_data_rows
      = (match lookupConfig m
            (if o'.interleave_format = .BSQ then "samples" else "lines") with
         | some v => atoiModel v
         | none => o.num_data_rows) ∧
    o'.num_data_cols
      = (match lookupConfig m
            (if o'.interleave_format = .BSQ then "lines" else "samples") with
         | some v => atoiModel v
         | none => o.num_data_cols) := by
  unfold applyHeaderFields at h
  split at h
  · exact Except.noConfusion h
  rename_i o1 h1
  split at h
  · exact Except.noConfusion h
  rename_i o2 h2
  injection h with h
  obtain ⟨p1r, p1c⟩ := parseInterleaveField_preserves m o o1 h1
  obtain ⟨p2f, p2r, p2c⟩ := parseDataTypeField_preserves m o1 o2 h2
  obtain ⟨m3f, m3r, m3c⟩ := applyMidFields_preserves m o2
  obtain ⟨r4, c4, f4⟩ :=
    applyRowsField_spec m (applyHeaderOffsetField m (applyByteOrderField m o2))
  obtain ⟨c5, r5, f5⟩ :=
    applyColsField_spec m
      (applyRowsField m (applyHeaderOffsetField m (applyByteOrderField m o2)))
  obtain ⟨f6, r6, c6⟩ :=
    applyBandsField_preserves m
      (applyColsField m
        (applyRowsField m (applyHeaderOffsetField m (applyByteOrderField m o2))))
  subst h
  have hfmt : (applyBandsField m
      (applyColsField m
        (applyRowsField m
          (applyHeaderOffsetField m (applyByteOrderField m o2))))).interleave_format
      = o1.interleave_format := by
    rw [f6, f5, f4, m3f, p2f]
  have hsplit : ∀ a b : String,
      (if o1.interleave_format = HSIDataInterleaveFormat.BSQ
       then lookupConfig m a else lookupConfig m b)
        = lookupConfig m
            (if o1.interleave_format = HSIDataInterleaveFormat.BSQ then a else b) := by
    intro a b
    by_cases hb : o1.interleave_format = HSIDataInterleaveFormat.BSQ <;> simp [hb]
  constructor
  · rw [r6, r5, r4, hfmt, m3f, p2f, m3r, p2r, p1r, hsplit]
  · rw [c6, c5, hfmt, f4, m3f, p2f, c4, m3c, p2c, p1c, hsplit]

/-- C7 witness: the swap verified both ways on concrete headers — with
`interleave = bsq`, `samples = 100` populates the rows; with
`interleave = bil`, the same `samples = 100` populates the columns. -/
theorem headerFields_rows_cols_swap_witness :
    (applyHeaderFields [("interleave", "bsq"), ("samples", "100")] {}
        = .ok { interleave_format := .BSQ, num_data_rows := 100 } ∧
      ({ interleave_format := .BSQ, num_data_rows := 100 } : HSIDataOptions).num_data_rows
        = (match lookupConfig [("interleave", "bsq"), ("samples", "100")]
              (if ({ interleave_format := .BSQ, num_data_rows := 100 }
                  : HSIDataOptions).interleave_format = .BSQ
               then "samples" else "lines") with
           | some v => atoiModel v
           | none => ({} : HSIDataOptions).num_data_rows)) ∧
    (applyHeaderFields [("interleave", "bil"), ("samples", "100")] {}
        = .ok { interleave_format := .BIL, num_data_cols := 100 } ∧
      ({ interleave_format := .BIL, num_data_cols := 100 } : HSIDataOptions).num_data_cols
        = (match lookupConfig [("interleave", "bil"), ("samples", "100")]
              (if ({ interleave_format := .BIL, num_data_cols := 100 }
                  : HSIDataOptions).interleave_format = .BSQ
               then "lines" else "samples") with
           | some v => atoiModel v
           | none => ({} : HSIDataOptions).num_data_cols)) :=
  ⟨⟨by rfl,
      (headerFields_rows_cols_swap [("interleave", "bsq"), ("samples", "100")] {}
        { interleave_format := .BSQ, num_data_rows := 100 } (by rfl)).1⟩,
    ⟨by rfl,
      (headerFields_rows_cols_swap [("interleave", "bil"), ("samples", "100")] {}
        { interleave_format := .BIL, num_data_cols := 100 } (by rfl)).2⟩⟩

theorem lookup_replaceAll (m : List (String × String)) (k v k' : String)
    (hne : k' ≠ k) :
    lookupConfig (m.map (fun p => if p.1 == k then (k, v) else p)) k'
      = lookupConfig m k' := by
  induction m with
  | nil => rfl
  | cons a m ih =>
    simp only [lookupConfig] at ih ⊢
    rw [List.map_cons, List.find?_cons, List.find?_cons]
    have hfa : ((if (a.1 == k) then ((k, v) : String × String) else a).1 == k')
        = (a.1 == k') := by
      by_cases ha : a.1 = k
      · simp [ha]
      · simp [ha]
    rw [hfa]
    cases hak : (a.1 == k') with
    | true =>
      have ha : (a.1 == k) = false := by
        have h1 : a.1 = k' := by simpa using hak
        rw [h1]
        exact beq_eq_false_iff_ne.mpr hne
      simp [ha]
    | false =>
      simpa using ih

theorem lookup_replaceAll_self (m : List (String × String)) (k v : String)
    (hany : m.any (fun p => p.1 == k) = true) :
    lookupConfig (m.map (fun p => if p.1 == k then (k, v) else p)) k
      = some v := by
  induction m with
  | nil => exact absurd hany (by simp)
  | cons a m ih =>
    simp only [lookupConfig] at ih ⊢
    rw [List.map_cons, List.find?_cons]
    by_cases ha : a.1 = k
    · have h1 : (if (a.1 == k) then ((k, v) : String × String) else a) = (k, v) := by
        simp [ha]
      rw [h1]
      simp
    · have h1 : (if (a.1 == k) then ((k, v) : String × String) else a) = a := by
        simp [ha]
      rw [h1]
      have h2 : (a.1 == k) = false := by simp [ha]
      rw [h2]
      have hany2 : m.any (fun p => p.1 == k) = true := by
        rcases (by simpa using hany : a.1 = k ∨ m.any (fun p => p.1 == k) = true) with h | h
        · exact absurd h ha
        · exact h
      simpa using ih hany2

theorem lookupConfig_configInsert (m : List (String × String)) (k v k' : String) :
    lookupConfig (configInsert m k v) k'
      = if k' = k then some v else lookupConfig m k' := by
  unfold configInsert
  by_cases hany : m.any (fun p => p.1 == k) = true
  · rw [if_pos hany]
    by_cases hk : k' = k
    · subst hk
      rw [if_pos rfl]
      exact lookup_replaceAll_self m k' v hany
    · rw [if_neg hk]
      exact lookup_replaceAll m k v k' hk
  · have hany2 : m.any (fun p => p.1 == k) = false := by
      cases h : m.any (fun p => p.1 == k)
      · rfl
      · exact absurd h hany
    rw [if_neg hany]
    simp only [lookupConfig, List.find?_append]
    by_cases hk : k' = k
    · subst hk
      have hnone : m.find? (fun p => p.1 == k') = none := by
        rw [List.find?_eq_none]
        intro x hx
        simpa using List.any_eq_false.mp hany2 x hx
      rw [hnone]
      simp [List.find?_cons]
    · rw [if_neg hk]
      have hlast : List.find? (fun p => p.1 == k') [(k, v)] = none := by
        have hkk : (k == k') = false := beq_eq_false_iff_ne.mpr (fun h => hk h.symm)
        simp [List.find?_cons, hkk]
      rw [hlast]
      simp

/-- C6 (amended): for every line of a config source, parse skips the line iff
its FIRST character is '#' (not its first non-whitespace character), or it
contains no '=', or its first '=' is at position 0; otherwise it splits at
the FIRST '=', whitespace-trims both key and value, and inserts the pair
with a later occurrence of the same key overwriting an earlier one (lookups
of other keys are unchanged). -/
theorem getConfigFileValues_line_contract (ls : List String) (line : String) :
    ((line.data.head? = some '#' ∨ line.data.findIdx? (fun c => c == '=') = none ∨
        line.data.findIdx? (fun c => c == '=') = some 0) →
      GetConfigFileValues (ls ++ [line]) = GetConfigFileValues ls) ∧
    (∀ i, line.data.findIdx? (fun c => c == '=') = some i → 0 < i →
      line.data.head? ≠ some '#' →
      ∀ k, lookupConfig (GetConfigFileValues (ls ++ [line])) k
        = if k = TrimString (String.mk (line.data.take i))
          then some (TrimString (String.mk (line.data.drop (i + 1))))
          else lookupConfig (GetConfigFileValues ls) k) := by
  have hfold : GetConfigFileValues (ls ++ [line])
      = parseConfigLine (GetConfigFileValues ls) line := by
    unfold GetConfigFileValues
    rw [List.foldl_append]
    rfl
  constructor
  · intro h
    rw [hfold]
    unfold parseConfigLine
    by_cases hh : line.data.head? = some '#'
    · rw [if_pos hh]
    · rw [if_neg hh]
      rcases h with h | h | h
      · exact absurd h hh
      · rw [h]
      · simp [h]
  · intro i hi hpos hh k
    rw [hfold]
    unfold parseConfigLine
    simp only [if_neg hh, hi]
    rw [if_neg (show ¬ i = 0 by omega)]
    exact lookupConfig_configInsert (GetConfigFileValues ls) _ _ k

/-- C6 counterexample: a line whose first non-whitespace character is '#'
but which starts with spaces is NOT skipped by the code — the claimed skip
condition holds for it, yet the parse inserts a key/value pair taken from it
(the C++ comment test `line.find('#') == 0` checks position 0 only). -/
theorem getConfigFileValues_hash_after_space_not_skipped :
    specSkipsLine "  # x = 1" = true ∧
    GetConfigFileValues ["  # x = 1"] = [("# x", "1")] ∧
    lookupConfig (GetConfigFileValues ["  # x = 1"]) "# x" = some "1" := by
  refine ⟨?_, ?_, ?_⟩ <;> rfl

/-- C6 witness: the amended contract applied to a duplicate-key pair of
lines, showing the later `a = c` overwriting the earlier `a = b`. -/
theorem getConfigFileValues_line_contract_witness :
    ("a = c").data.findIdx? (fun c => c == '=') = some 2 ∧
    lookupConfig (GetConfigFileValues (["a = b"] ++ ["a = c"])) "a"
      = if "a" = TrimString (String.mk (("a = c").data.take 2))
        then some (TrimString (String.mk (("a = c").data.drop 3)))
        else lookupConfig (GetConfigFileValues ["a = b"]) "a" :=
  ⟨rfl,
    (getConfigFileValues_line_contract ["a = b"] "a = c").2 2 rfl (by omega)
      (by decide) "a"⟩

/-! ## Round-trip machinery (claim C3) -/

theorem reverseIfNeeded_length (b : Bool) (l : List Nat) :
    (reverseIfNeeded b l).length = l.length := by
  cases b <;> simp [reverseIfNeeded, ReverseBytes]

theorem reverseIfNeeded_involutive (b : Bool) (l : List Nat) :
    reverseIfNeeded b (reverseIfNeeded b l) = l := by
  cases b <;> simp [reverseIfNeeded, ReverseBytes]

theorem elementBytesAt_length (file : Nat → Nat) (s p : Nat) :
    (elementBytesAt file s p).length = s := by
  simp [elementBytesAt]

theorem flatMap_congr_mem {α : Type} (l : List α) (f g : α → List Nat)
    (h : ∀ a ∈ l, f a = g a) : l.flatMap f = l.flatMap g := by
  induction l with
  | nil => rfl
  | cons a l ih =>
    rw [List.flatMap_cons, List.flatMap_cons, h a (by simp),
      ih (fun x hx => h x (by simp [hx]))]

theorem length_flatMap_const {α : Type} (l : List α) (f : α → List Nat) (k : Nat)
    (h : ∀ a ∈ l, (f a).length = k) : (l.flatMap f).length = l.length * k := by
  induction l with
  | nil => simp
  | cons a l ih =>
    rw [List.flatMap_cons, List.length_append, h a (by simp),
      ih (fun x hx => h x (by simp [hx])), List.length_cons]
    ring

theorem readRawData_length (file : Nat → Nat) (s : Nat) (rev : Bool)
    (ps : List Nat) : (readRawData file s rev ps).length = ps.length * s := by
  unfold readRawData
  exact length_flatMap_const ps _ s
    (fun p _ => by rw [reverseIfNeeded_length, elementBytesAt_length])

theorem ReadNextPositions_length (s : Nat) :
    ∀ (l : List Nat) (cur pos : Nat),
      (ReadNextPositions s l cur pos).length = l.length := by
  intro l
  induction l with
  | nil => intro cur pos; rfl
  | cons i rest ih =>
    intro cur pos
    simp only [ReadNextPositions, List.length_cons, ih]

theorem chain_lt_range' :
    ∀ (n s c : Nat), c < s → List.Chain (· < ·) c (List.range' s n) := by
  intro n
  induction n with
  | zero => intro s c _; exact List.Chain.nil
  | succ n ih =>
    intro s c h
    rw [List.range'_succ]
    exact List.Chain.cons h (ih (s + 1) s (Nat.lt_succ_self s))

theorem ReadNextPositions_of_chain (s : Nat) :
    ∀ (l : List Nat) (cur : Nat), List.Chain (· < ·) cur l →
      ReadNextPositions s l cur ((cur + 1) * s) = l.map (· * s) := by
  intro l
  induction l with
  | nil => intro cur _; rfl
  | cons i rest ih =>
    intro cur hch
    rcases hch with _ | ⟨hci, hrest⟩
    unfold ReadNextPositions
    by_cases hskip : cur + 1 < i
    · rw [if_pos hskip]
      dsimp only
      rw [List.map_cons]
      have h2 : i * s + s = (i + 1) * s := by ring
      rw [h2, ih i hrest]
    · rw [if_neg hskip]
      have hie : i = cur + 1 := by omega
      subst hie
      dsimp only
      rw [List.map_cons]
      have h2 : (cur + 1) * s + s = (cur + 1 + 1) * s := by ring
      rw [h2, ih (cur + 1) hrest]

theorem ReadNextPositions_range (s N : Nat) :
    ReadNextPositions s (List.range N) 0 0 = (List.range N).map (· * s) := by
  cases N with
  | zero => rfl
  | succ N =>
    rw [List.range_eq_range', List.range'_succ]
    unfold ReadNextPositions
    rw [if_neg (by omega)]
    dsimp only
    rw [List.map_cons]
    have h1 : (0 : Nat) + s = (0 + 1) * s := by ring
    rw [h1, ReadNextPositions_of_chain s _ 0 (chain_lt_range' N 1 0 (by omega))]
    simp

theorem range_mul_flatMap (a b : Nat) :
    (List.range a).flatMap (fun i => (List.range b).map (fun j => i * b + j))
      = List.range (a * b) := by
  induction a with
  | zero => simp
  | succ a ih =>
    rw [List.range_succ, List.flatMap_append, ih, Nat.succ_mul, List.range_add]
    simp [List.flatMap_cons]

theorem bsq_full_indices (d : NatDims) :
    ReadDataBSQindices d ⟨0, d.rows, 0, d.cols, 0, d.bands⟩
      = List.range (d.bands * (d.rows * d.cols)) := by
  unfold ReadDataBSQindices
  simp only [Nat.sub_zero, ← List.range_eq_range']
  have h1 : ∀ band : Nat,
      (List.range d.rows).flatMap (fun row =>
        (List.range d.cols).map (fun col =>
          band * (d.rows * d.cols) + (row * d.cols + col)))
        = (List.range (d.rows * d.cols)).map
            (fun j => band * (d.rows * d.cols) + j) := by
    intro band
    rw [← range_mul_flatMap d.rows d.cols, List.map_flatMap]
    simp only [List.map_map]
    refine flatMap_congr_mem _ _ _ (fun row _ => ?_)
    refine List.map_congr_left (fun col _ => ?_)
    simp [Function.comp]
  simp only [h1]
  exact range_mul_flatMap d.bands (d.rows * d.cols)

theorem bil_full_indices (d : NatDims) :
    ReadDataBILindices d ⟨0, d.rows, 0, d.cols, 0, d.bands⟩
      = List.range (d.rows * (d.bands * d.cols)) := by
  unfold ReadDataBILindices
  simp only [Nat.sub_zero, ← List.range_eq_range']
  have h1 : ∀ row : Nat,
      (List.range d.bands).flatMap (fun band =>
        (List.range d.cols).map (fun col =>
          row * (d.bands * d.cols) + band * d.cols + col))
        = (List.range (d.bands * d.cols)).map
            (fun j => row * (d.bands * d.cols) + j) := by
    intro row
    rw [← range_mul_flatMap d.bands d.cols, List.map_flatMap]
    simp only [List.map_map]
    refine flatMap_congr_mem _ _ _ (fun band _ => ?_)
    refine List.map_congr_left (fun col _ => ?_)
    simp [Function.comp]
    ring
  simp only [h1]
  exact range_mul_flatMap d.rows (d.bands * d.cols)

theorem bip_full_indices (d : NatDims) :
    ReadDataBIPindices d ⟨0, d.rows, 0, d.cols, 0, d.bands⟩
      = List.range (d.rows * (d.bands * d.cols)) := by
  unfold ReadDataBIPindices
  simp only [Nat.sub_zero, ← List.range_eq_range']
  have h1 : ∀ row : Nat,
      (List.range d.cols).flatMap (fun col =>
        (List.range d.bands).map (fun band =>
          row * (d.bands * d.cols) + col * d.bands + band))
        = (List.range (d.cols * d.bands)).map
            (fun j => row * (d.bands * d.cols) + j) := by
    intro row
    rw [← range_mul_flatMap d.cols d.bands, List.map_flatMap]
    simp only [List.map_map]
    refine flatMap_congr_mem _ _ _ (fun col _ => ?_)
    refine List.map_congr_left (fun band _ => ?_)
    simp [Function.comp]
    ring
  simp only [h1]
  have h2 : d.cols * d.bands = d.bands * d.cols := Nat.mul_comm _ _
  rw [h2]
  exact range_mul_flatMap d.rows (d.bands * d.cols)

theorem getD_flatMap_blocks (s : Nat) :
    ∀ (N : Nat) (f : Nat → List Nat), (∀ i, i < N → (f i).length = s) →
      ∀ j, j < N → ∀ k, k < s →
        ((List.range N).flatMap f).getD (j * s + k) 0 = (f j).getD k 0 := by
  intro N
  induction N with
  | zero => intro f _ j hj; omega
  | succ N ih =>
    intro f hf j hj k hk
    rw [List.range_succ_eq_map, List.flatMap_cons, List.flatMap_map]
    cases j with
    | zero =>
      rw [Nat.zero_mul, Nat.zero_add]
      exact List.getD_append _ _ 0 k (by rw [hf 0 (by omega)]; exact hk)
    | succ j =>
      have hlen0 : (f 0).length = s := hf 0 (by omega)
      have e1 : (j + 1) * s = j * s + s := by ring
      have hpos : (f 0).length ≤ (j + 1) * s + k := by
        rw [hlen0]
        omega
      rw [List.getD_append_right _ _ 0 _ hpos]
      have harith : (j + 1) * s + k - (f 0).length = j * s + k := by
        rw [hlen0]
        omega
      rw [harith]
      exact ih (fun i => f (i + 1)) (fun i hi => hf (i + 1) (by omega)) j
        (by omega) k hk

theorem map_getD_self (l : List Nat) (s : Nat) (h : l.length = s) :
    (List.range s).map (fun k => l.getD k 0) = l := by
  apply List.ext_getElem
  · simp [h]
  · intro n h1 h2
    rw [List.getElem_map, List.getElem_range]
    exact List.getD_eq_getElem l 0 (by omega)

theorem chunks_flatMap_eq (s : Nat) :
    ∀ (N : Nat) (raw : List Nat), raw.length = N * s →
      (List.range N).flatMap (fun i => (raw.drop (i * s)).take s) = raw := by
  intro N
  induction N with
  | zero =>
    intro raw h
    have h0 : raw = [] := by
      rw [← List.length_eq_zero]
      simpa using h
    simp [h0]
  | succ N ih =>
    intro raw h
    rw [List.range_succ_eq_map, List.flatMap_cons, List.flatMap_map]
    have h0 : (raw.drop (0 * s)).take s = raw.take s := by
      rw [Nat.zero_mul, List.drop_zero]
    have htail : (List.range N).flatMap (fun i => (raw.drop ((i + 1) * s)).take s)
        = (List.range N).flatMap (fun i => ((raw.drop s).drop (i * s)).take s) := by
      refine flatMap_congr_mem _ _ _ (fun i _ => ?_)
      rw [List.drop_drop]
      have h1 : (i + 1) * s = s + i * s := by ring
      rw [h1]
    have hlen : (raw.drop s).length = N * s := by
      rw [List.length_drop, h, Nat.succ_mul]
      omega
    calc (raw.drop (0 * s)).take s
          ++ (List.range N).flatMap (fun i => (raw.drop ((i + 1) * s)).take s)
        = raw.take s
          ++ (List.range N).flatMap (fun i => ((raw.drop s).drop (i * s)).take s) := by
          rw [h0, htail]
      _ = raw.take s ++ raw.drop s := by rw [ih (raw.drop s) hlen]
      _ = raw := List.take_append_drop s raw

theorem read_of_write (raw : List Nat) (s : Nat) (hs : 0 < s) (rev : Bool)
    (N : Nat) (hraw : raw.length = N * s) :
    readRawData
      (fileOfBytes ((List.range N).flatMap
        (fun i => reverseIfNeeded rev ((raw.drop (i * s)).take s))))
      s rev (ReadNextPositions s (List.range N) 0 0)
      = raw := by
  set L := (List.range N).flatMap
    (fun i => reverseIfNeeded rev ((raw.drop (i * s)).take s)) with hL
  rw [ReadNextPositions_range]
  unfold readRawData
  rw [List.flatMap_map]
  have hblk : ∀ i, i < N →
      (reverseIfNeeded rev ((raw.drop (i * s)).take s)).length = s := by
    intro i hi
    rw [reverseIfNeeded_length, List.length_take, List.length_drop]
    have h1 : (i + 1) * s ≤ N * s := Nat.mul_le_mul_right s (by omega)
    have h2 : (i + 1) * s = i * s + s := by ring
    rw [Nat.min_eq_left (by omega)]
  have helem : ∀ i ∈ List.range N,
      reverseIfNeeded rev (elementBytesAt (fileOfBytes L) s (i * s))
        = (raw.drop (i * s)).take s := by
    intro i hi
    have hiN : i < N := List.mem_range.mp hi
    have h1 : elementBytesAt (fileOfBytes L) s (i * s)
        = reverseIfNeeded rev ((raw.drop (i * s)).take s) := by
      unfold elementBytesAt fileOfBytes
      have h2 : ∀ k ∈ List.range s,
          L.getD (i * s + k) 0
            = (reverseIfNeeded rev ((raw.drop (i * s)).take s)).getD k 0 :=
        fun k hk => getD_flatMap_blocks s N _ (fun t ht => hblk t ht) i hiN k
          (List.mem_range.mp hk)
      rw [List.map_congr_left h2]
      exact map_getD_self _ s (hblk i hiN)
    rw [h1, reverseIfNeeded_involutive]
  rw [flatMap_congr_mem _ _ _ helem]
  exact chunks_flatMap_eq s N raw hraw

theorem ReadDataBSQindices_length (d : NatDims) (r : NatRange) :
    (ReadDataBSQindices d r).length
      = (r.eb - r.sb) * ((r.er - r.sr) * (r.ec - r.sc)) := by
  unfold ReadDataBSQindices
  have hin : ∀ band ∈ List.range' r.sb (r.eb - r.sb),
      ((List.range' r.sr (r.er - r.sr)).flatMap (fun row =>
        (List.range' r.sc (r.ec - r.sc)).map (fun col =>
          band * (d.rows * d.cols) + (row * d.cols + col)))).length
        = (r.er - r.sr) * (r.ec - r.sc) := by
    intro band _
    rw [length_flatMap_const _ _ (r.ec - r.sc)
      (fun row _ => by rw [List.length_map, List.length_range'])]
    rw [List.length_range']
  rw [length_flatMap_const _ _ _ hin, List.length_range']

theorem ReadDataBILindices_length (d : NatDims) (r : NatRange) :
    (ReadDataBILindices d r).length
      = (r.er - r.sr) * ((r.eb - r.sb) * (r.ec - r.sc)) := by
  unfold ReadDataBILindices
  have hin : ∀ row ∈ List.range' r.sr (r.er - r.sr),
      ((List.range' r.sb (r.eb - r.sb)).flatMap (fun band =>
        (List.range' r.sc (r.ec - r.sc)).map (fun col =>
          row * (d.bands * d.cols) + band * d.cols + col))).length
        = (r.eb - r.sb) * (r.ec - r.sc) := by
    intro row _
    rw [length_flatMap_const _ _ (r.ec - r.sc)
      (fun band _ => by rw [List.length_map, List.length_range'])]
    rw [List.length_range']
  rw [length_flatMap_const _ _ _ hin, List.length_range']

theorem ReadDataBIPindices_length (d : NatDims) (r : NatRange) :
    (ReadDataBIPindices d r).length
      = (r.er - r.sr) * ((r.ec - r.sc) * (r.eb - r.sb)) := by
  unfold ReadDataBIPindices
  have hin : ∀ row ∈ List.range' r.sr (r.er - r.sr),
      ((List.range' r.sc (r.ec - r.sc)).flatMap (fun col =>
        (List.range' r.sb (r.eb - r.sb)).map (fun band =>
          row * (d.bands * d.cols) + col * d.bands + band))).length
        = (r.ec - r.sc) * (r.eb - r.sb) := by
    intro row _
    rw [length_flatMap_const _ _ (r.eb - r.sb)
      (fun col _ => by rw [List.length_map, List.length_range'])]
    rw [List.length_range']
  rw [length_flatMap_const _ _ _ hin, List.length_range']

theorem buildCube_raw_length (file : Nat → Nat) (opts : HSIDataOptions)
    (range : HSIDataRange) (mBE : Bool) :
    (buildCube file opts range mBE).raw_data.length
      = (interleaveIndices opts.interleave_format (natDimsOf opts)
          (natRangeOf range)).length * GetDataSize opts.data_type := by
  unfold buildCube
  dsimp only
  rw [readRawData_length, ReadNextPositions_length]

theorem rangeValidationError_none_iff (opts : HSIDataOptions) (r : HSIDataRange) :
    rangeValidationError opts r = none ↔
      (0 ≤ r.start_row ∧ r.end_row ≤ opts.num_data_rows ∧
        0 < r.end_row - r.start_row ∧
        0 ≤ r.start_col ∧ r.end_col ≤ opts.num_data_cols ∧
        0 < r.end_col - r.start_col ∧
        0 ≤ r.start_band ∧ r.end_band ≤ opts.num_data_bands ∧
        0 < r.end_band - r.start_band) := by
  unfold rangeValidationError
  split_ifs with h1 h2 h3 h4 h5 h6 <;> simp <;> omega

theorem WriteData_blocks (c : HSIData) (be mBE : Bool) (N : Nat)
    (hraw : c.raw_data.length = N * GetDataSize c.data_type) :
    WriteData c be mBE
      = (List.range N).flatMap (fun i =>
          reverseIfNeeded (be != mBE)
            ((c.raw_data.drop (i * GetDataSize c.data_type)).take
              (GetDataSize c.data_type))) := by
  unfold WriteData
  dsimp only
  rw [hraw, Nat.mul_div_cancel _ (GetDataSize_pos _)]

theorem roundTrip_core (c : HSIData) (be mBE : Bool)
    (hlen : c.raw_data.length
      = c.num_rows.toNat * c.num_cols.toNat * c.num_bands.toNat
        * GetDataSize c.data_type) :
    (buildCube (fileOfBytes (WriteData c be mBE)) (matchingOptions c be)
        (fullCubeRange c) mBE).raw_data = c.raw_data := by
  have hspos : 0 < GetDataSize c.data_type := GetDataSize_pos _
  unfold buildCube
  dsimp only
  simp only [matchingOptions, fullCubeRange, natDimsOf, natRangeOf,
    Int.toNat_zero, Nat.zero_mul]
  cases hfmt : c.interleave_format
  · -- BSQ
    have hN : c.raw_data.length
        = c.num_bands.toNat * (c.num_rows.toNat * c.num_cols.toNat)
          * GetDataSize c.data_type := by
      rw [hlen]
      ring
    simp only [interleaveIndices]
    rw [bsq_full_indices, WriteData_blocks c be mBE _ hN]
    exact read_of_write c.raw_data _ hspos _ _ hN
  · -- BIP
    have hN : c.raw_data.length
        = c.num_rows.toNat * (c.num_bands.toNat * c.num_cols.toNat)
          * GetDataSize c.data_type := by
      rw [hlen]
      ring
    simp only [interleaveIndices]
    rw [bip_full_indices, WriteData_blocks c be mBE _ hN]
    exact read_of_write c.raw_data _ hspos _ _ hN
  · -- BIL
    have hN : c.raw_data.length
        = c.num_rows.toNat * (c.num_bands.toNat * c.num_cols.toNat)
          * GetDataSize c.data_type := by
      rw [hlen]
      ring
    simp only [interleaveIndices]
    rw [bil_full_indices, WriteData_blocks c be mBE _ hN]
    exact read_of_write c.raw_data _ hspos _ _ hN

/-- C3: round-trip fidelity.  For every valid range and every
interleave/data-type/endianness combination, writing the cube produced by
`ReadData` and reading the written file back under matching DataOptions (the
sub-cube's own dimensions, header offset 0, same interleave, data type and
endianness, full range) succeeds and yields a cube whose raw bytes are
identical to the original cube's raw bytes. -/
theorem write_read_roundtrip (file : Nat → Nat) (opts : HSIDataOptions)
    (range : HSIDataRange) (mBE : Bool)
    (hval : rangeValidationError opts range = none) :
    ReadData
        (fileOfBytes (WriteData (buildCube file opts range mBE)
          opts.big_endian mBE))
        (matchingOptions (buildCube file opts range mBE) opts.big_endian)
        (fullCubeRange (buildCube file opts range mBE)) mBE
      = .ok (buildCube
          (fileOfBytes (WriteData (buildCube file opts range mBE)
            opts.big_endian mBE))
          (matchingOptions (buildCube file opts range mBE) opts.big_endian)
          (fullCubeRange (buildCube file opts range mBE)) mBE) ∧
    (buildCube
        (fileOfBytes (WriteData (buildCube file opts range mBE)
          opts.big_endian mBE))
        (matchingOptions (buildCube file opts range mBE) opts.big_endian)
        (fullCubeRange (buildCube file opts range mBE)) mBE).raw_data
      = (buildCube file opts range mBE).raw_data := by
  obtain ⟨b1, b2, b3, b4, b5, b6, b7, b8, b9⟩ :=
    (rangeValidationError_none_iff opts range).mp hval
  have e1 : (buildCube file opts range mBE).num_rows
      = range.end_row - range.start_row := rfl
  have e2 : (buildCube file opts range mBE).num_cols
      = range.end_col - range.start_col := rfl
  have e3 : (buildCube file opts range mBE).num_bands
      = range.end_band - range.start_band := rfl
  constructor
  · have hval2 : rangeValidationError
        (matchingOptions (buildCube file opts range mBE) opts.big_endian)
        (fullCubeRange (buildCube file opts range mBE)) = none := by
      rw [rangeValidationError_none_iff]
      simp only [matchingOptions, fullCubeRange, e1, e2, e3]
      exact ⟨by omega, by omega, by omega, by omega, by omega, by omega,
        by omega, by omega, by omega⟩
    unfold ReadData
    rw [hval2]
  · have t1 : (buildCube file opts range mBE).num_rows.toNat
        = range.end_row.toNat - range.start_row.toNat := by
      rw [e1]
      omega
    have t2 : (buildCube file opts range mBE).num_cols.toNat
        = range.end_col.toNat - range.start_col.toNat := by
      rw [e2]
      omega
    have t3 : (buildCube file opts range mBE).num_bands.toNat
        = range.end_band.toNat - range.start_band.toNat := by
      rw [e3]
      omega
    refine roundTrip_core _ _ _ ?_
    rw [t1, t2, t3, buildCube_raw_length]
    show (interleaveIndices opts.interleave_format (natDimsOf opts)
        (natRangeOf range)).length * GetDataSize opts.data_type
      = (range.end_row.toNat - range.start_row.toNat)
        * (range.end_col.toNat - range.start_col.toNat)
        * (range.end_band.toNat - range.start_band.toNat)
        * GetDataSize opts.data_type
    cases opts.interleave_format
    · rw [show interleaveIndices .BSQ (natDimsOf opts) (natRangeOf range)
          = ReadDataBSQindices (natDimsOf opts) (natRangeOf range) from rfl,
        ReadDataBSQindices_length]
      simp only [natRangeOf]
      ring
    · rw [show interleaveIndices .BIP (natDimsOf opts) (natRangeOf range)
          = ReadDataBIPindices (natDimsOf opts) (natRangeOf range) from rfl,
        ReadDataBIPindices_length]
      simp only [natRangeOf]
      ring
    · rw [show interleaveIndices .BIL (natDimsOf opts) (natRangeOf range)
          = ReadDataBILindices (natDimsOf opts) (natRangeOf range) from rfl,
        ReadDataBILindices_length]
      simp only [natRangeOf]
      ring

/-- C3 witness: the round-trip property evaluated on the small byte cube with
its full range. -/
theorem write_read_roundtrip_witness :
    rangeValidationError optsSmall rangeSmallFull = none ∧
    (buildCube
        (fileOfBytes (WriteData (buildCube (fun n => n) optsSmall rangeSmallFull false)
          optsSmall.big_endian false))
        (matchingOptions (buildCube (fun n => n) optsSmall rangeSmallFull false)
          optsSmall.big_endian)
        (fullCubeRange (buildCube (fun n => n) optsSmall rangeSmallFull false))
        false).raw_data
      = (buildCube (fun n => n) optsSmall rangeSmallFull false).raw_data :=
  ⟨by decide,
    (write_read_roundtrip (fun n => n) optsSmall rangeSmallFull false
      (by decide)).2⟩
